import Mathlib

/- Verification of pkg/gomodcmd/runner.go from sevein/bingo.

   The Go code is a thin subprocess facade. We embed it shallowly: the
   outcome of each attempted subprocess run (exit status, captured
   combined stdout/stderr, error text) is an explicit input, and each
   operation returns its result together with the list of external
   effects (subprocess runs, directory creation, manifest stat) it
   performed, in order. -/

namespace Gomodcmd

/-- Character-level model of strings.HasPrefix from the Go standard library. -/
def hasPrefixGo (s pre : String) : Bool :=
  pre.data.isPrefixOf s.data

/-- Model of strings.TrimRight(s, newline-cutset): drop every trailing newline
character of s, as done on captured output in Runner.exec. -/
def trimRightNL (s : String) : String :=
  ⟨(s.data.reverse.dropWhile (fun c => c = '\n')).reverse⟩

/-- Model of strings.Join(args, space), used when formatting the command line
in error messages. -/
def joinSpace : List String → String
  | [] => ""
  | [a] => a
  | a :: b :: rest => a ++ " " ++ joinSpace (b :: rest)

/-- Model of filepath.Join on the already-clean, non-empty relative components
that runner.go passes to it (joining two components with a separator). -/
def filepathJoin (a b : String) : String :=
  if a = "" then b else if b = "" then a else a ++ "/" ++ b

/-- The Runner struct of runner.go: path of the go binary, module directory,
insecure flag and verbose flag. -/
structure Runner where
  goCmd : String
  modDir : String
  insecure : Bool
  verbose : Bool
  deriving DecidableEq

/-- Outcome of one attempted subprocess run, as observed by Runner.exec:
clean exit with captured output, non-zero exit (exec.ExitError) with captured
output and error text, or any other start/run failure with captured output and
error text. -/
inductive ExecOutcome where
  | exited (out : String)
  | exitErr (out : String) (errMsg : String)
  | startErr (out : String) (errMsg : String)
  deriving DecidableEq

/-- Outcome of os.Stat on the go.mod path: file present, os.IsNotExist
error, or any other stat error. -/
inductive StatOutcome where
  | found
  | notFound
  | failed (errMsg : String)
  deriving DecidableEq

/-- One external effect performed by the Runner: a subprocess run in a
directory, an os.MkdirAll call, or an os.Stat of the manifest path. -/
inductive Event where
  | run (dir : String) (command : String) (args : List String)
  | mkdirAll (dir : String)
  | statFile (path : String)
  deriving DecidableEq

/-- The error text produced by errors.Errorf in Runner.exec for a failed
command: full command line, captured output and underlying error. -/
def execErrMsg (command : String) (args : List String) (out errMsg : String) : String :=
  "error while running command \x27" ++ command ++ " " ++ joinSpace args ++
    "\x27; out: " ++ out ++ "; err: " ++ errMsg

/-- Runner.exec of runner.go: on clean exit return the captured output with
trailing newlines stripped; on non-zero exit return the verbose message when
verbose is set, else exactly the captured output; on any other failure always
return the verbose message. The directory cd only selects where the command
runs, it does not change the result value. -/
def Runner.exec (c : Runner) (cd command : String) (args : List String)
    (o : ExecOutcome) : Except String String :=
  match o with
  | .exited out => .ok (trimRightNL out)
  | .exitErr out errMsg =>
      if c.verbose then .error (execErrMsg command args out errMsg)
      else .error out
  | .startErr out errMsg => .error (execErrMsg command args out errMsg)

/-- Runner.execGo: run the go command in the inherited current directory. -/
def Runner.execGo (c : Runner) (args : List String) (o : ExecOutcome) :
    Except String String :=
  c.exec "" c.goCmd args o

/-- Runner.execGoInModDir: run the go command in the module directory. -/
def Runner.execGoInModDir (c : Runner) (args : List String) (o : ExecOutcome) :
    Except String String :=
  c.exec c.modDir c.goCmd args o

/-- The environment a single NewRunner construction runs against: outcomes of
the go version call, the MkdirAll call, the go.mod stat, and (when reached)
the go list -m and go mod init calls. -/
structure Env where
  versionRes : ExecOutcome
  mkdirRes : Option String
  statRes : StatOutcome
  listRes : ExecOutcome
  initRes : ExecOutcome
  deriving DecidableEq

/-- NewRunner of runner.go: check the go version against the hardcoded
two-part version string, create the module directory, stat go.mod and, when
it is absent, bootstrap it via go list -m followed by go mod init with the
joined module name. Returns the result together with the ordered list of
external effects performed. -/
def NewRunner (insecure : Bool) (modDir goCmd : String) (env : Env) :
    Except String Runner × List Event :=
  let r : Runner := ⟨goCmd, modDir, insecure, false⟩
  let vEv := Event.run "" goCmd ["version"]
  match r.execGo ["version"] env.versionRes with
  | .error e => (.error ("exec go to detect the version: " ++ e), [vEv])
  | .ok ver =>
    if !(hasPrefixGo ver "go version go1.14.") then
      (.error ("found unsupported go version: " ++ ver ++ ". Requires go1.14.x"), [vEv])
    else
      match env.mkdirRes with
      | some e => (.error ("create moddir " ++ modDir ++ ": " ++ e),
          [vEv, .mkdirAll modDir])
      | none =>
        let statP := filepathJoin modDir "go.mod"
        match env.statRes with
        | .failed e => (.error ("stat module file " ++ statP ++ ": " ++ e),
            [vEv, .mkdirAll modDir, .statFile statP])
        | .found => (.ok r, [vEv, .mkdirAll modDir, .statFile statP])
        | .notFound =>
          let lEv := Event.run "" goCmd ["list", "-m"]
          match r.execGo ["list", "-m"] env.listRes with
          | .error e => (.error e, [vEv, .mkdirAll modDir, .statFile statP, lEv])
          | .ok currMod =>
            let initArgs := ["mod", "init", filepathJoin currMod r.modDir]
            let iEv := Event.run modDir goCmd initArgs
            match r.execGoInModDir initArgs env.initRes with
            | .error e =>
                (.error e, [vEv, .mkdirAll modDir, .statFile statP, lEv, iEv])
            | .ok _ =>
                (.ok r, [vEv, .mkdirAll modDir, .statFile statP, lEv, iEv])

/-- GetUpdatePolicy is a string-typed enumeration in runner.go. -/
abbrev GetUpdatePolicy := String

/-- The no-update policy: empty flag string. -/
def NoUpdatePolicy : GetUpdatePolicy := ""

/-- The update-all policy: the -u flag. -/
def UpdatePolicy : GetUpdatePolicy := "-u"

/-- The update-patch policy: the -u=patch flag. -/
def UpdatePatchPolicy : GetUpdatePolicy := "-u=patch"

/-- Runner.GetD of runner.go: build [get, -d], append -insecure when
configured, append the update flag when the policy is not NoUpdatePolicy,
append the packages, and run the go command in the module directory. -/
def Runner.GetD (c : Runner) (update : GetUpdatePolicy) (packages : List String)
    (o : ExecOutcome) : Except String Unit × List Event :=
  let args := ["get", "-d"]
  let args := if c.insecure then args ++ ["-insecure"] else args
  let args := if update ≠ NoUpdatePolicy then args ++ [update] else args
  let args := args ++ packages
  ((c.execGoInModDir args o).map fun _ => (),
    [Event.run c.modDir c.goCmd args])

/-- Runner.Install of runner.go: run go install with the given packages in the
module directory. -/
def Runner.Install (c : Runner) (packages : List String) (o : ExecOutcome) :
    Except String Unit × List Event :=
  let args := ["install"] ++ packages
  ((c.execGoInModDir args o).map fun _ => (),
    [Event.run c.modDir c.goCmd args])

/-- Runner.ModTidy of runner.go: run go mod tidy in the module directory. -/
def Runner.ModTidy (c : Runner) (o : ExecOutcome) :
    Except String Unit × List Event :=
  ((c.execGoInModDir ["mod", "tidy"] o).map fun _ => (),
    [Event.run c.modDir c.goCmd ["mod", "tidy"]])

/-- An insecure, non-verbose Runner used as a concrete instance. -/
def rIns : Runner := ⟨"go", "testmod", true, false⟩

/-- A verbose Runner used as a concrete instance. -/
def rVerb : Runner := ⟨"go", "testmod", false, true⟩

/-- Helper: the drop of trailing newlines only removes newline characters. -/
theorem trimRightNL_decomp (s : String) :
    ∃ k, s.data = (trimRightNL s).data ++ List.replicate k '\n' := by
  refine ⟨(s.data.reverse.takeWhile (fun c => c = '\n')).length, ?_⟩
  have h1 := List.takeWhile_append_dropWhile (p := fun c : Char => c = '\n')
    (l := s.data.reverse)
  have h2 := congrArg List.reverse h1
  rw [List.reverse_append, List.reverse_reverse] at h2
  have h3 : s.data.reverse.takeWhile (fun c : Char => c = '\n') =
      List.replicate ((s.data.reverse.takeWhile (fun c : Char => c = '\n')).length) '\n' := by
    refine List.eq_replicate_of_mem ?_
    intro b hb
    have := List.mem_takeWhile_imp hb
    simpa using this
  have h4 : (s.data.reverse.takeWhile (fun c : Char => c = '\n')).reverse =
      List.replicate ((s.data.reverse.takeWhile (fun c : Char => c = '\n')).length) '\n' := by
    conv_lhs => rw [h3]
    rw [List.reverse_replicate]
  calc s.data = (s.data.reverse.dropWhile (fun c : Char => c = '\n')).reverse ++
        (s.data.reverse.takeWhile (fun c : Char => c = '\n')).reverse := h2.symm
    _ = (trimRightNL s).data ++
        (s.data.reverse.takeWhile (fun c : Char => c = '\n')).reverse := rfl
    _ = (trimRightNL s).data ++
        List.replicate ((s.data.reverse.takeWhile (fun c : Char => c = '\n')).length) '\n' := by
        rw [h4]

/-- Helper: after dropping trailing newlines the result does not end in a
newline, so nothing more than the trailing newlines was removed. -/
theorem trimRightNL_getLast (s : String) :
    (trimRightNL s).data.getLast? ≠ some '\n' := by
  show ((s.data.reverse.dropWhile (fun c : Char => c = '\n')).reverse).getLast? ≠ some '\n'
  rw [List.getLast?_reverse]
  cases hd : s.data.reverse.dropWhile (fun c : Char => c = '\n') with
  | nil => simp
  | cons x xs =>
    have hne : s.data.reverse.dropWhile (fun c : Char => c = '\n') ≠ [] := by
      rw [hd]; exact List.cons_ne_nil x xs
    have hx := List.head_dropWhile_not (fun c : Char => c = '\n') s.data.reverse hne
    have hhd : (s.data.reverse.dropWhile (fun c : Char => c = '\n')).head hne = x := by
      simp [hd]
    rw [hhd] at hx
    simp only [List.head?_cons]
    intro hcontra
    rw [Option.some_inj] at hcontra
    simp [hcontra] at hx

/-- C7: on a clean (status zero) exit, Runner.exec returns the captured output
with every trailing newline stripped; the stripped text is a prefix of the
output whose removed suffix consists of newlines only, and it does not itself
end in a newline, so nothing else is removed. -/
theorem exec_cleanExit_trims (c : Runner) (cd command : String)
    (args : List String) (out : String) :
    c.exec cd command args (.exited out) = .ok (trimRightNL out) ∧
    (∃ k, out.data = (trimRightNL out).data ++ List.replicate k '\n') ∧
    (trimRightNL out).data.getLast? ≠ some '\n' :=
  ⟨rfl, trimRightNL_decomp out, trimRightNL_getLast out⟩

/-- C7 witness: a concrete clean exit with two trailing newlines. -/
theorem exec_cleanExit_trims_witness :
    rIns.exec "testmod" "go" ["list", "-m"] (.exited "example.com/mod\n\n") =
      .ok "example.com/mod" := by
  have h := exec_cleanExit_trims rIns "testmod" "go" ["list", "-m"] "example.com/mod\n\n"
  rw [h.1]
  have he : trimRightNL "example.com/mod\n\n" = "example.com/mod" := by decide
  rw [he]

/-- C3: on a non-zero exit, the failure is exactly the captured combined
output when verbose is false, and the verbose message carrying the full
command line, the captured output and the underlying exit error when verbose
is true. -/
theorem exec_exitErr_message (c : Runner) (cd command : String)
    (args : List String) (out errMsg : String) :
    (c.verbose = false →
      c.exec cd command args (.exitErr out errMsg) = .error out) ∧
    (c.verbose = true →
      c.exec cd command args (.exitErr out errMsg) =
        .error ("error while running command \x27" ++ command ++ " " ++
          joinSpace args ++ "\x27; out: " ++ out ++ "; err: " ++ errMsg)) := by
  constructor <;> intro h <;> simp [Runner.exec, h, execErrMsg]

/-- C3 witness: both verbosity settings at a concrete failed run. -/
theorem exec_exitErr_message_witness :
    rVerb.exec "testmod" "go" ["install", "x"] (.exitErr "boom\n" "exit status 1") =
      .error "error while running command \x27go install x\x27; out: boom\n; err: exit status 1" ∧
    rIns.exec "testmod" "go" ["install", "x"] (.exitErr "boom\n" "exit status 1") =
      .error "boom\n" := by
  have h1 := exec_exitErr_message rVerb "testmod" "go" ["install", "x"] "boom\n" "exit status 1"
  have h2 := exec_exitErr_message rIns "testmod" "go" ["install", "x"] "boom\n" "exit status 1"
  refine ⟨?_, h2.1 rfl⟩
  rw [h1.2 rfl]
  have he : "error while running command \x27" ++ "go" ++ " " ++
      joinSpace ["install", "x"] ++ "\x27; out: " ++ "boom\n" ++ "; err: " ++
      "exit status 1" =
      "error while running command \x27go install x\x27; out: boom\n; err: exit status 1" := by
    decide
  rw [he]

/-- C6: on any subprocess failure other than a non-zero exit, the failure
message carries the full command line, the captured output and the underlying
error, for every Runner and hence regardless of the verbose flag. -/
theorem exec_startErr_message (c : Runner) (cd command : String)
    (args : List String) (out errMsg : String) :
    c.exec cd command args (.startErr out errMsg) =
      .error ("error while running command \x27" ++ command ++ " " ++
        joinSpace args ++ "\x27; out: " ++ out ++ "; err: " ++ errMsg) := rfl

/-- C8: Install performs exactly one subprocess run, with arguments install
followed by the packages, in the module directory; ModTidy performs exactly
one subprocess run with arguments mod tidy in the module directory. -/
theorem Install_ModTidy_single_call (c : Runner) (packages : List String)
    (o o2 : ExecOutcome) :
    (c.Install packages o).2 =
      [Event.run c.modDir c.goCmd (["install"] ++ packages)] ∧
    (c.ModTidy o2).2 = [Event.run c.modDir c.goCmd ["mod", "tidy"]] :=
  ⟨rfl, rfl⟩

/-- C1: GetD builds the argument list as get, -d, then -insecure exactly when
the Runner is insecure, then the update flag exactly when the policy is not
NoUpdatePolicy, then the packages; so all flags precede the packages,
-insecure precedes the update flag, and with UpdatePolicy the flag segment
ends in -u. -/
theorem GetD_args_order (c : Runner) (update : GetUpdatePolicy)
    (packages : List String) (o : ExecOutcome) :
    (c.GetD update packages o).2 =
      [Event.run c.modDir c.goCmd
        ((["get", "-d"] ++ (if c.insecure then ["-insecure"] else []) ++
          (if update ≠ NoUpdatePolicy then [update] else [])) ++ packages)] ∧
    (update = UpdatePolicy →
      (["get", "-d"] ++ (if c.insecure then ["-insecure"] else []) ++
        (if update ≠ NoUpdatePolicy then [update] else [])).getLast? =
        some "-u") := by
  constructor
  · unfold Runner.GetD
    cases hc : c.insecure <;> by_cases hu : update = NoUpdatePolicy <;>
      simp [hc, hu]
  · rintro rfl
    cases hc : c.insecure <;> simp [hc, UpdatePolicy, NoUpdatePolicy]

/-- C1 witness: insecure Runner with the update-all policy and one package. -/
theorem GetD_args_order_witness :
    (rIns.GetD UpdatePolicy ["x@v1"] (.exited "")).2 =
      [Event.run "testmod" "go" ["get", "-d", "-insecure", "-u", "x@v1"]] ∧
    (["get", "-d"] ++ (if rIns.insecure then ["-insecure"] else []) ++
      (if UpdatePolicy ≠ NoUpdatePolicy then [UpdatePolicy] else [])).getLast? =
      some "-u" := by
  have h := GetD_args_order rIns UpdatePolicy ["x@v1"] (.exited "")
  refine ⟨?_, h.2 rfl⟩
  rw [h.1]
  rfl

/-- A concrete environment in which go.mod is absent and every call succeeds. -/
def envBoot : Env :=
  ⟨.exited "go version go1.14.4\n", none, .notFound,
   .exited "example.com/mod\n", .exited ""⟩

/-- A concrete environment in which go.mod is already present. -/
def envFound : Env :=
  ⟨.exited "go version go1.14.4\n", none, .found, .exited "", .exited ""⟩

/-- A concrete environment reporting an unsupported go version. -/
def envBadVer : Env :=
  ⟨.exited "go version go1.13.8\n", none, .found, .exited "", .exited ""⟩

/-- A concrete environment in which the go binary cannot be started. -/
def envVerFail : Env :=
  ⟨.startErr "" "exec: go: not found", none, .found, .exited "", .exited ""⟩

/-- C2: when the version check passes, the module directory is created and the
manifest stat reports not-found, construction performs exactly one go list -m
call followed (when that call succeeds) by exactly one go mod init call whose
module-name argument is the current module name joined with the module
directory; a failure of the init call or of the list call makes construction
fail, and in the latter case no init call happens. -/
theorem NewRunner_bootstrap (insecure : Bool) (modDir goCmd vOut : String)
    (env : Env)
    (hv : env.versionRes = .exited vOut)
    (hpre : hasPrefixGo (trimRightNL vOut) "go version go1.14." = true)
    (hmk : env.mkdirRes = none)
    (hstat : env.statRes = .notFound) :
    (∀ lOut, env.listRes = .exited lOut →
      (NewRunner insecure modDir goCmd env).2 =
        [Event.run "" goCmd ["version"], Event.mkdirAll modDir,
         Event.statFile (filepathJoin modDir "go.mod"),
         Event.run "" goCmd ["list", "-m"],
         Event.run modDir goCmd
           ["mod", "init", filepathJoin (trimRightNL lOut) modDir]] ∧
      ((∃ iOut, env.initRes = .exited iOut) →
        (NewRunner insecure modDir goCmd env).1 =
          .ok ⟨goCmd, modDir, insecure, false⟩) ∧
      (∀ iOut iErr,
        env.initRes = .exitErr iOut iErr ∨ env.initRes = .startErr iOut iErr →
        ∃ e, (NewRunner insecure modDir goCmd env).1 = .error e)) ∧
    (∀ lOut lErr,
      env.listRes = .exitErr lOut lErr ∨ env.listRes = .startErr lOut lErr →
      (∃ e, (NewRunner insecure modDir goCmd env).1 = .error e) ∧
      (NewRunner insecure modDir goCmd env).2 =
        [Event.run "" goCmd ["version"], Event.mkdirAll modDir,
         Event.statFile (filepathJoin modDir "go.mod"),
         Event.run "" goCmd ["list", "-m"]]) := by
  obtain ⟨vres, mkr, str, lsr, inr⟩ := env
  simp only at hv hmk hstat
  subst hv hmk hstat
  constructor
  · intro lOut hl
    simp only at hl
    subst hl
    refine ⟨?_, ?_, ?_⟩
    · simp [NewRunner, Runner.execGo, Runner.execGoInModDir, Runner.exec, hpre]
      cases inr <;> simp
    · rintro ⟨iOut, hi⟩
      simp only at hi
      subst hi
      simp [NewRunner, Runner.execGo, Runner.execGoInModDir, Runner.exec, hpre]
    · rintro iOut iErr (hi | hi) <;> simp only at hi <;> subst hi <;>
        simp [NewRunner, Runner.execGo, Runner.execGoInModDir, Runner.exec, hpre]
  · rintro lOut lErr (hl | hl) <;> simp only at hl <;> subst hl <;>
      simp [NewRunner, Runner.execGo, Runner.execGoInModDir, Runner.exec, hpre]

/-- C2 witness: successful bootstrap in a concrete environment with no
go.mod present. -/
theorem NewRunner_bootstrap_witness :
    (NewRunner false "testmod" "go" envBoot).2 =
      [Event.run "" "go" ["version"], Event.mkdirAll "testmod",
       Event.statFile "testmod/go.mod", Event.run "" "go" ["list", "-m"],
       Event.run "testmod" "go" ["mod", "init", "example.com/mod/testmod"]] ∧
    (NewRunner false "testmod" "go" envBoot).1 =
      .ok ⟨"go", "testmod", false, false⟩ := by
  have h := NewRunner_bootstrap false "testmod" "go" "go version go1.14.4\n"
    envBoot rfl (by decide) rfl rfl
  have h1 := h.1 "example.com/mod\n" rfl
  refine ⟨?_, h1.2.1 ⟨"", rfl⟩⟩
  rw [h1.1]
  have he : filepathJoin (trimRightNL "example.com/mod\n") "testmod" =
      "example.com/mod/testmod" := by decide
  have hf : filepathJoin "testmod" "go.mod" = "testmod/go.mod" := by decide
  rw [he, hf]

/-- C4: when the version subprocess succeeds but its trimmed output does not
start with the hardcoded two-part version string, construction fails with a
message that contains the detected version string verbatim. -/
theorem NewRunner_badVersion (insecure : Bool) (modDir goCmd vOut : String)
    (env : Env)
    (hv : env.versionRes = .exited vOut)
    (hpre : hasPrefixGo (trimRightNL vOut) "go version go1.14." = false) :
    (NewRunner insecure modDir goCmd env).1 =
      .error ("found unsupported go version: " ++ trimRightNL vOut ++
        ". Requires go1.14.x") ∧
    ∃ a b, "found unsupported go version: " ++ trimRightNL vOut ++
      ". Requires go1.14.x" = a ++ trimRightNL vOut ++ b := by
  obtain ⟨vres, mkr, str, lsr, inr⟩ := env
  simp only at hv
  subst hv
  refine ⟨?_, "found unsupported go version: ", ". Requires go1.14.x", rfl⟩
  simp [NewRunner, Runner.execGo, Runner.exec, hpre]

/-- C4 witness: concrete construction against a go1.13 toolchain. -/
theorem NewRunner_badVersion_witness :
    (NewRunner false "testmod" "go" envBadVer).1 =
      .error "found unsupported go version: go version go1.13.8. Requires go1.14.x" := by
  have h := NewRunner_badVersion false "testmod" "go" "go version go1.13.8\n"
    envBadVer rfl (by decide)
  rw [h.1]
  have he : "found unsupported go version: " ++
      trimRightNL "go version go1.13.8\n" ++ ". Requires go1.14.x" =
      "found unsupported go version: go version go1.13.8. Requires go1.14.x" := by
    decide
  rw [he]

/-- C5: when the version check passes, the module directory is created and
the manifest stat succeeds, construction returns the configured Runner and
performs no bootstrap subprocess call: the only subprocess run in the trace
is the version query. -/
theorem NewRunner_manifestExists (insecure : Bool) (modDir goCmd vOut : String)
    (env : Env)
    (hv : env.versionRes = .exited vOut)
    (hpre : hasPrefixGo (trimRightNL vOut) "go version go1.14." = true)
    (hmk : env.mkdirRes = none)
    (hstat : env.statRes = .found) :
    (NewRunner insecure modDir goCmd env).1 =
      .ok ⟨goCmd, modDir, insecure, false⟩ ∧
    (NewRunner insecure modDir goCmd env).2 =
      [Event.run "" goCmd ["version"], Event.mkdirAll modDir,
       Event.statFile (filepathJoin modDir "go.mod")] ∧
    ∀ d cmd as, Event.run d cmd as ∈ (NewRunner insecure modDir goCmd env).2 →
      as = ["version"] := by
  obtain ⟨vres, mkr, str, lsr, inr⟩ := env
  simp only at hv hmk hstat
  subst hv hmk hstat
  refine ⟨?_, ?_, ?_⟩
  · simp [NewRunner, Runner.execGo, Runner.exec, hpre]
  · simp [NewRunner, Runner.execGo, Runner.exec, hpre]
  · intro d cmd as hmem
    simp [NewRunner, Runner.execGo, Runner.exec, hpre] at hmem
    exact hmem.2.2

/-- C5 witness: concrete construction with go.mod already present. -/
theorem NewRunner_manifestExists_witness :
    (NewRunner true "testmod" "go" envFound).1 =
      .ok ⟨"go", "testmod", true, false⟩ ∧
    (NewRunner true "testmod" "go" envFound).2 =
      [Event.run "" "go" ["version"], Event.mkdirAll "testmod",
       Event.statFile "testmod/go.mod"] := by
  have h := NewRunner_manifestExists true "testmod" "go" "go version go1.14.4\n"
    envFound rfl (by decide) rfl rfl
  refine ⟨h.1, ?_⟩
  rw [h.2.1]
  have hf : filepathJoin "testmod" "go.mod" = "testmod/go.mod" := by decide
  rw [hf]

/-- Helper: every Runner that NewRunner returns is the one record it built,
whose verbose field is false. -/
theorem NewRunner_ok_eq (insecure : Bool) (modDir goCmd : String) (env : Env)
    (r : Runner) (h : (NewRunner insecure modDir goCmd env).1 = .ok r) :
    r = ⟨goCmd, modDir, insecure, false⟩ := by
  obtain ⟨vres, mkr, str, lsr, inr⟩ := env
  cases vres with
  | exited vOut =>
    cases hp : hasPrefixGo (trimRightNL vOut) "go version go1.14." <;>
      cases mkr <;> cases str <;> cases lsr <;> cases inr <;>
      simp_all [NewRunner, Runner.execGo, Runner.execGoInModDir, Runner.exec, hp]
  | exitErr out errMsg =>
    simp_all [NewRunner, Runner.execGo, Runner.exec]
  | startErr out errMsg =>
    simp_all [NewRunner, Runner.execGo, Runner.exec]

/-- C9: every Runner the public constructor returns has verbose set to false,
so for such Runners a controlled non-zero-exit failure always yields the terse
message equal to the captured output. -/
theorem NewRunner_verbose_false (insecure : Bool) (modDir goCmd : String)
    (env : Env) (r : Runner)
    (h : (NewRunner insecure modDir goCmd env).1 = .ok r) :
    r.verbose = false ∧
    ∀ cd command args out errMsg,
      r.exec cd command args (.exitErr out errMsg) = .error out := by
  have hr := NewRunner_ok_eq insecure modDir goCmd env r h
  subst hr
  exact ⟨rfl, fun cd command args out errMsg => rfl⟩

/-- C9 witness: a concretely constructed Runner is non-verbose and reports a
non-zero exit tersely. -/
theorem NewRunner_verbose_false_witness :
    (⟨"go", "testmod", false, false⟩ : Runner).verbose = false ∧
    (⟨"go", "testmod", false, false⟩ : Runner).exec "" "go" ["install"]
      (.exitErr "boom" "exit status 1") = .error "boom" := by
  have h := NewRunner_verbose_false false "testmod" "go" envFound
    ⟨"go", "testmod", false, false⟩ rfl
  exact ⟨h.1, h.2 "" "go" ["install"] "boom" "exit status 1"⟩

/-- C10: when the version subprocess fails or its trimmed output lacks the
required version string, construction fails after performing only the version
query: no directory creation and no bootstrap subprocess appear in the effect
trace. -/
theorem NewRunner_versionFail_noEffects (insecure : Bool) (modDir goCmd : String)
    (env : Env)
    (h : ∀ vOut, env.versionRes = .exited vOut →
      hasPrefixGo (trimRightNL vOut) "go version go1.14." = false) :
    (NewRunner insecure modDir goCmd env).2 = [Event.run "" goCmd ["version"]] ∧
    (∀ d, Event.mkdirAll d ∉ (NewRunner insecure modDir goCmd env).2) ∧
    ∃ e, (NewRunner insecure modDir goCmd env).1 = .error e := by
  obtain ⟨vres, mkr, str, lsr, inr⟩ := env
  cases vres with
  | exited vOut =>
    have hp := h vOut rfl
    simp [NewRunner, Runner.execGo, Runner.exec, hp]
  | exitErr out errMsg =>
    simp [NewRunner, Runner.execGo, Runner.exec]
  | startErr out errMsg =>
    simp [NewRunner, Runner.execGo, Runner.exec]

/-- C10 witness: a concrete construction whose go binary cannot be started. -/
theorem NewRunner_versionFail_noEffects_witness :
    (NewRunner false "testmod" "go" envVerFail).2 =
      [Event.run "" "go" ["version"]] ∧
    Event.mkdirAll "testmod" ∉ (NewRunner false "testmod" "go" envVerFail).2 := by
  have h := NewRunner_versionFail_noEffects false "testmod" "go" envVerFail
    (fun vOut hv => by simp [envVerFail] at hv)
  exact ⟨h.1, h.2.1 "testmod"⟩

end Gomodcmd
